import Mathlib

/-!
# Lifecycle controller of the client application

A shallow embedding of `src/framework/core/application.cpp`: the signal
handler `exitSignalHandler` and the methods `init`, `deinit`, `terminate`,
`poll`, `exit`, `close` and `restart` of `Application`.

The methods mutate two kinds of things: fields of the process (the members
`m_stopping`, `m_terminated`, ..., the function-local static `signaled`, the
signal dispositions) and collaborators that live in other translation units
(`g_dispatcher`, `g_lua`, `g_clock`, ...).  The first kind is a field of
`State`; a call into a collaborator is recorded, in program order, in
`State.trace` and is not interpreted any further.
-/

namespace Otc

/-! ## Data model -/

/-- Value of `SIGINT` in `<csignal>`. -/
def SIGINT : Int := 2

/-- Value of `SIGTERM` in `<csignal>`. -/
def SIGTERM : Int := 15

/-- Second argument of `signal(2)`: the dispositions the source installs
(`exitSignalHandler`, `SIG_DFL`), and any other one the process may have had
before `init`. -/
inductive SigHandler where
  | SIG_DFL
  | exitSignalHandler
  | other (id : Nat)
deriving DecidableEq, Repr

/-- The three dispatch queues: `g_dispatcher`, `g_textDispatcher`,
`g_mainDispatcher`. -/
inductive Queue where
  | general
  | text
  | main
deriving DecidableEq, Repr

/-- Callables the source posts onto a queue.  The only one is the lambda
`[ObjectPtr = &g_app] { ObjectPtr->close(); }` of `exitSignalHandler`. -/
inductive Task where
  | close
deriving DecidableEq, Repr

/-- Field names passed to `g_lua.callGlobalField("g_app", ...)`. -/
inductive LuaField where
  | onTerminate
  | onExit
  | onClose
  | onRestart
deriving DecidableEq, Repr

/-- Enumerator `Platform::Mobile`. -/
inductive DeviceType where
  | Mobile
deriving DecidableEq, Repr

/-- Enumerator `Platform::Android`. -/
inductive OperatingSystem where
  | Android
deriving DecidableEq, Repr

/-- A call into a collaborator, as it appears in the source. -/
inductive Call where
  /-- `signal(sig, h)` -/
  | signal (sig : Int) (h : SigHandler)
  /-- `installCrashHandler()` -/
  | installCrashHandler
  /-- `std::locale::global(std::locale())` -/
  | localeGlobal
  /-- `q.init()` -/
  | dispatcherInit (q : Queue)
  /-- `q.poll()` -/
  | dispatcherPoll (q : Queue)
  /-- `q.shutdown()` -/
  | dispatcherShutdown (q : Queue)
  /-- `q.addEvent(t)` -/
  | dispatcherAddEvent (q : Queue) (t : Task)
  /-- `g_logger.info("Startup options: {}", msg)` -/
  | loggerInfo (msg : List Char)
  /-- `g_platform.setDevice({ type, os })` -/
  | platformSetDevice (type : DeviceType) (os : OperatingSystem)
  /-- `g_configs.init()` -/
  | configsInit
  /-- `g_lua.init()` -/
  | luaInit
  /-- `registerLuaFunctions()` -/
  | registerLuaFunctions
  /-- `g_proxy.init()` -/
  | proxyInit
  /-- `g_lua.callGlobalField("g_app", f)` -/
  | luaCallGlobalField (f : LuaField)
  /-- `g_modules.unloadModules()` -/
  | modulesUnloadModules
  /-- `g_modules.clear()` -/
  | modulesClear
  /-- `g_lua.collectGarbage()` -/
  | luaCollectGarbage
  /-- `Connection::terminate()` -/
  | connectionTerminate
  /-- `WebConnection::terminate()` -/
  | webConnectionTerminate
  /-- `Connection::poll()` -/
  | connectionPoll
  /-- `WebConnection::poll()` -/
  | webConnectionPoll
  /-- `g_configs.terminate()` -/
  | configsTerminate
  /-- `g_resources.terminate()` -/
  | resourcesTerminate
  /-- `g_lua.terminate()` -/
  | luaTerminate
  /-- `g_proxy.terminate()` -/
  | proxyTerminate
  /-- `g_clock.update()` -/
  | clockUpdate
  /-- `g_resources.getBinaryPath()` -/
  | resourcesGetBinaryPath
  /-- `g_platform.spawnProcess(path, args)` -/
  | platformSpawnProcess (args : List (List Char))
deriving DecidableEq, Repr

/-- Preprocessor symbols the source branches on. -/
structure Build where
  FRAMEWORK_NET : Bool
  EMSCRIPTEN : Bool
  CRASH_HANDLER : Bool
deriving DecidableEq, Repr

/-- The process state the source reads and writes.  A `std::string` is the
list of its characters. -/
structure State where
  /-- `Application::m_stopping` -/
  m_stopping : Bool
  /-- `Application::m_terminated` -/
  m_terminated : Bool
  /-- `Application::m_context`, by the address it owns -/
  m_context : Option Nat
  /-- `Application::m_startupOptions` -/
  m_startupOptions : List Char
  /-- `Application::m_startupArgs` -/
  m_startupArgs : List (List Char)
  /-- `static bool signaled` of `exitSignalHandler` -/
  signaled : Bool
  /-- disposition of `SIGTERM` -/
  sigtermHandler : SigHandler
  /-- disposition of `SIGINT` -/
  sigintHandler : SigHandler
  /-- collaborator calls made so far, oldest first -/
  trace : List Call
deriving DecidableEq, Repr

/-- Records one collaborator call. -/
def call (c : Call) (s : State) : State :=
  { s with trace := s.trace ++ [c] }

/-- Records several collaborator calls, in order. -/
def calls (cs : List Call) (s : State) : State :=
  { s with trace := s.trace ++ cs }

/-- The libc call `signal(sig, h)`: recorded, and the disposition of `sig`
becomes `h`. -/
def signal (sig : Int) (h : SigHandler) (s : State) : State :=
  let s := call (.signal sig h) s
  if sig = SIGTERM then { s with sigtermHandler := h }
  else if sig = SIGINT then { s with sigintHandler := h }
  else s

/-- The calls recorded on the way from `s` to `t`. -/
def emitted (s t : State) : List Call :=
  t.trace.drop s.trace.length

/-- Modelled from the spec: the accessor `isStopping()` is declared in
`application.h`, which is not among the sources; it reads the stopping flag,
the member `m_stopping` that `exit()` sets. -/
def Application.isStopping (s : State) : Bool := s.m_stopping

/-- Modelled from the spec: the accessor `isTerminated()` is declared in
`application.h`, which is not among the sources; it reads the terminated flag,
the member `m_terminated` that `terminate()` sets. -/
def Application.isTerminated (s : State) : Bool := s.m_terminated

/-! ## The signal handler -/

/-- `void exitSignalHandler(const int sig)`. -/
def exitSignalHandler (sig : Int) (s : State) : State :=
  if sig = SIGTERM ∨ sig = SIGINT then
    if !s.signaled && !Application.isStopping s && !Application.isTerminated s then
      call (.dispatcherAddEvent .general .close) { s with signaled := true }
    else s
  else s

/-- Delivers the signals of `sigs` to `exitSignalHandler`, first to last. -/
def deliver (sigs : List Int) (s : State) : State :=
  sigs.foldl (fun s sig => exitSignalHandler sig s) s

/-! ## String helpers of `init` -/

/-- The loop of `init` that builds `startupOptions`: for `i = 1 .. size - 1`
it appends a space and then `args[i]`.  The counter is a `uint32_t`; `main`
builds `args` from an `int argc`, so it does not wrap. -/
def startupOptions (args : List (List Char)) : List Char :=
  (args.drop 1).foldl (fun acc arg => (acc ++ [' ']) ++ arg) []

/-- Search loop of `std::string::find`: the first position at or after `pos`
where `pat` occurs in the remaining characters. -/
def findFrom (pat : List Char) : List Char → Nat → Option Nat
  | [], pos => if pat = [] then some pos else none
  | c :: cs, pos =>
    if pat.isPrefixOf (c :: cs) then some pos else findFrom pat cs (pos + 1)

/-- `str.find(pat)`; `none` is `std::string::npos`. -/
def find (str pat : List Char) : Option Nat :=
  findFrom pat str 0

/-- The literal `"-mobile"`. -/
def mobileFlag : List Char := ['-', 'm', 'o', 'b', 'i', 'l', 'e']

/-! ## Methods of `Application` -/

/-- `Connection::poll()` or `WebConnection::poll()`, when `FRAMEWORK_NET` is
defined. -/
def netPoll (b : Build) : List Call :=
  if b.FRAMEWORK_NET then
    (if b.EMSCRIPTEN then [Call.webConnectionPoll] else [Call.connectionPoll])
  else []

/-- `Connection::terminate()` or `WebConnection::terminate()`, when
`FRAMEWORK_NET` is defined. -/
def netTerminate (b : Build) : List Call :=
  if b.FRAMEWORK_NET then
    (if b.EMSCRIPTEN then [Call.webConnectionTerminate] else [Call.connectionTerminate])
  else []

/-- `void Application::init(std::vector<std::string>& args, ApplicationContext* context)`. -/
def Application.init (b : Build) (args : List (List Char)) (context : Nat)
    (s : State) : State :=
  let s := { s with m_context := some context }
  let s := signal SIGTERM .exitSignalHandler s
  let s := signal SIGINT .exitSignalHandler s
  let s := if b.CRASH_HANDLER then call .installCrashHandler s else s
  let s := call .localeGlobal s
  let s := call (.dispatcherInit .general) s
  let s := call (.dispatcherInit .text) s
  let s := call (.dispatcherInit .main) s
  let opts := startupOptions args
  let s := if opts.length > 0 then call (.loggerInfo opts) s else s
  let s := { s with m_startupOptions := opts, m_startupArgs := args }
  let s := if (find opts mobileFlag).isSome then
      call (.platformSetDevice .Mobile .Android) s else s
  let s := call .configsInit s
  let s := call .luaInit s
  let s := call .registerLuaFunctions s
  call .proxyInit s

/-- `void Application::poll()`. -/
def Application.poll (b : Build) (s : State) : State :=
  let s := call .clockUpdate s
  let s := calls (netPoll b) s
  let s := call (.dispatcherPoll .general) s
  let s := calls (netPoll b) s
  call .clockUpdate s

/-- The calls of one `Application::poll()`. -/
def Application.pollCalls (b : Build) : List Call :=
  [Call.clockUpdate] ++ netPoll b ++ [Call.dispatcherPoll .general] ++ netPoll b
    ++ [Call.clockUpdate]

/-- `void Application::deinit()`.  Its first `poll()` is an unqualified call
on `this`, which the source tells apart from the qualified
`Application::poll()` that follows it; the class declaration is not among the
sources, so what the unqualified call runs is the parameter `vpoll`, the calls
it makes (`Application.pollCalls b` for an object whose `poll` is
`Application::poll`). -/
def Application.deinit (b : Build) (vpoll : List Call) (s : State) : State :=
  let s := call (.luaCallGlobalField .onTerminate) s
  let s := calls vpoll s
  let s := Application.poll b s
  let s := call (.dispatcherShutdown .text) s
  let s := call (.dispatcherShutdown .general) s
  let s := call (.dispatcherShutdown .main) s
  let s := call .modulesUnloadModules s
  let s := call .modulesClear s
  call .luaCollectGarbage s

/-- `void Application::terminate()`. -/
def Application.terminate (b : Build) (s : State) : State :=
  let s := calls (netTerminate b) s
  let s := call .configsTerminate s
  let s := call .resourcesTerminate s
  let s := call .luaTerminate s
  let s := call .proxyTerminate s
  let s := { s with m_terminated := true }
  let s := signal SIGTERM .SIG_DFL s
  signal SIGINT .SIG_DFL s

/-- `void Application::exit()`. -/
def Application.exit (s : State) : State :=
  let s := call (.luaCallGlobalField .onExit) s
  { s with m_stopping := true }

/-- `void Application::close()`; `onClose` is what
`g_lua.callGlobalField<bool>("g_app", "onClose")` returns.  The `exit()` it
calls is `Application::exit`, the one definition of it among the sources. -/
def Application.close (onClose : Bool) (s : State) : State :=
  let s := call (.luaCallGlobalField .onClose) s
  if !onClose then Application.exit s else s

/-- `void Application::restart()`; its `exit()` is `Application::exit`. -/
def Application.restart (s : State) : State :=
  let s := call (.luaCallGlobalField .onRestart) s
  let s := call .resourcesGetBinaryPath s
  let s := call (.platformSpawnProcess s.m_startupArgs) s
  Application.exit s

/-! ## Sequences of operations -/

/-- One operation on the controller, with what the environment supplies to
it: the arguments of `init`, the answer of the `onClose` hook, the calls made
by the `poll()` that `deinit` dispatches to, the number of a delivered
signal. -/
inductive Op where
  | init (args : List (List Char)) (context : Nat)
  | poll
  | close (onClose : Bool)
  | exit
  | restart
  | deinit (vpoll : List Call)
  | terminate
  | signal (sig : Int)
deriving DecidableEq, Repr

/-- Runs one operation. -/
def step (b : Build) : Op → State → State
  | .init args context => Application.init b args context
  | .poll => Application.poll b
  | .close onClose => Application.close onClose
  | .exit => Application.exit
  | .restart => Application.restart
  | .deinit vpoll => Application.deinit b vpoll
  | .terminate => Application.terminate b
  | .signal sig => exitSignalHandler sig

/-- Runs the operations of `ops`, first to last. -/
def run (b : Build) (ops : List Op) (s : State) : State :=
  ops.foldl (fun s op => step b op s) s

/-- Number of times the `onExit` hook was called in a trace. -/
def onExitCalls (t : List Call) : Nat :=
  t.count (Call.luaCallGlobalField .onExit)

/-- Number of close tasks posted onto the general queue in a trace. -/
def closePosts (t : List Call) : Nat :=
  t.count (Call.dispatcherAddEvent .general .close)

/-- A process before `init`: nothing set, default dispositions, no call made. -/
def State.initial : State :=
  { m_stopping := false, m_terminated := false, m_context := none,
    m_startupOptions := [], m_startupArgs := [], signaled := false,
    sigtermHandler := .SIG_DFL, sigintHandler := .SIG_DFL, trace := [] }

/-- The calls of one `Application::init`, in program order. -/
def Application.initCalls (b : Build) (args : List (List Char)) : List Call :=
  [Call.signal SIGTERM .exitSignalHandler, Call.signal SIGINT .exitSignalHandler]
    ++ (if b.CRASH_HANDLER then [Call.installCrashHandler] else [])
    ++ [Call.localeGlobal, Call.dispatcherInit .general, Call.dispatcherInit .text,
        Call.dispatcherInit .main]
    ++ (if (startupOptions args).length > 0 then
          [Call.loggerInfo (startupOptions args)] else [])
    ++ (if (find (startupOptions args) mobileFlag).isSome then
          [Call.platformSetDevice .Mobile .Android] else [])
    ++ [Call.configsInit, Call.luaInit, Call.registerLuaFunctions, Call.proxyInit]

/-- Whether an operation reaches the body of `exit()`: `exit()` itself, or a
`close()` whose `onClose` hook returned false. -/
def Op.exits : Op → Bool
  | .exit => true
  | .close onClose => !onClose
  | _ => false

/-- Whether an operation is a call of `close()` or of `exit()`. -/
def Op.isCloseOrExit : Op → Bool
  | .exit => true
  | .close _ => true
  | _ => false

/-- Spec-side description of the startup options: over the arguments in
order, one space followed by the argument. -/
def spacedConcat : List (List Char) → List Char
  | [] => []
  | arg :: rest => (' ' :: arg) ++ spacedConcat rest

/-- The calls of one `Application::terminate`, in program order. -/
def Application.terminateCalls (b : Build) : List Call :=
  netTerminate b ++
    [Call.configsTerminate, Call.resourcesTerminate, Call.luaTerminate,
     Call.proxyTerminate, Call.signal SIGTERM .SIG_DFL, Call.signal SIGINT .SIG_DFL]

/-- The calls of one `Application::deinit`, in program order, `vpoll` being
those of the `poll()` it dispatches to. -/
def Application.deinitCalls (b : Build) (vpoll : List Call) : List Call :=
  [Call.luaCallGlobalField .onTerminate] ++ vpoll ++ Application.pollCalls b ++
    [Call.dispatcherShutdown .text, Call.dispatcherShutdown .general,
     Call.dispatcherShutdown .main, Call.modulesUnloadModules, Call.modulesClear,
     Call.luaCollectGarbage]

/-- The calls of a trace that reset a signal disposition to `SIG_DFL`. -/
def resets (t : List Call) : List Call :=
  t.filter fun c =>
    match c with
    | .signal _ .SIG_DFL => true
    | _ => false

/-! ## Trace lemmas -/

theorem emitted_append (s t : State) (cs : List Call) (h : t.trace = s.trace ++ cs) :
    emitted s t = cs := by
  simp [emitted, h]

theorem exit_trace (s : State) :
    (Application.exit s).trace = s.trace ++ [Call.luaCallGlobalField .onExit] := rfl

theorem exitSignalHandler_first (sig : Int) (s : State)
    (hsig : sig = SIGTERM ∨ sig = SIGINT) (h1 : s.signaled = false)
    (h2 : s.m_stopping = false) (h3 : s.m_terminated = false) :
    exitSignalHandler sig s =
      call (.dispatcherAddEvent .general .close) { s with signaled := true } := by
  simp [exitSignalHandler, hsig, h1, h2, h3, Application.isStopping,
    Application.isTerminated]

theorem exitSignalHandler_latched (sig : Int) (s : State) (h : s.signaled = true) :
    exitSignalHandler sig s = s := by
  simp [exitSignalHandler, h]

theorem deliver_latched (sigs : List Int) (s : State) (h : s.signaled = true) :
    deliver sigs s = s := by
  induction sigs with
  | nil => rfl
  | cons sig rest ih =>
    simp only [deliver, List.foldl_cons] at ih ⊢
    rw [exitSignalHandler_latched sig s h]
    exact ih

theorem poll_eq (b : Build) (s : State) :
    Application.poll b s = calls (Application.pollCalls b) s := by
  simp [Application.poll, Application.pollCalls, call, calls, List.append_assoc]

theorem close_handled_eq (s : State) :
    Application.close true s = call (.luaCallGlobalField .onClose) s := by
  simp [Application.close]

theorem close_unhandled_eq (s : State) :
    Application.close false s =
      Application.exit (call (.luaCallGlobalField .onClose) s) := by
  simp [Application.close]

theorem init_eq (b : Build) (args : List (List Char)) (context : Nat) (s : State) :
    Application.init b args context s =
      { s with
        m_context := some context
        m_startupOptions := startupOptions args
        m_startupArgs := args
        sigtermHandler := .exitSignalHandler
        sigintHandler := .exitSignalHandler
        trace := s.trace ++ Application.initCalls b args } := by
  simp only [Application.init, Application.initCalls, signal, call]
  have h1 : SIGTERM = SIGTERM := rfl
  have h2 : ¬ (SIGINT = SIGTERM) := by decide
  simp only [h1, h2, if_true, if_false]
  split_ifs <;> simp [List.append_assoc]

theorem exit_eq (s : State) :
    Application.exit s =
      { s with m_stopping := true
               trace := s.trace ++ [Call.luaCallGlobalField .onExit] } := rfl

/-! ## Lemmas on the startup options -/

theorem foldl_spaced (args : List (List Char)) (acc : List Char) :
    args.foldl (fun acc arg => (acc ++ [' ']) ++ arg) acc = acc ++ spacedConcat args := by
  induction args generalizing acc with
  | nil => simp [spacedConcat]
  | cons a rest ih =>
    rw [List.foldl_cons, ih]
    simp [spacedConcat, List.append_assoc]

theorem startupOptions_eq (args : List (List Char)) :
    startupOptions args = spacedConcat (args.drop 1) := by
  rw [startupOptions, foldl_spaced]
  rfl

theorem findFrom_isSome (pat : List Char) (str : List Char) (pos : Nat) :
    (findFrom pat str pos).isSome = true ↔ pat <:+: str := by
  induction str generalizing pos with
  | nil =>
    by_cases h : pat = [] <;> simp [findFrom, h]
  | cons c cs ih =>
    rw [findFrom, List.infix_cons_iff]
    by_cases h : pat.isPrefixOf (c :: cs) = true
    · have hp : pat <+: c :: cs := List.isPrefixOf_iff_prefix.mp h
      simp [h, hp]
    · have hp : ¬ pat <+: c :: cs := fun hp => h (List.isPrefixOf_iff_prefix.mpr hp)
      simp [h, hp, ih]

/-- An occurrence of `pat` in `a ++ c :: l` lies in `a` or in `l` when `c` is
not a character of `pat`. -/
theorem occurs_split (pat a l : List Char) (c : Char) (hc : c ∉ pat)
    (h : pat <:+: a ++ c :: l) : pat <:+: a ∨ pat <:+: l := by
  obtain ⟨u, v, huv⟩ := h
  rw [List.append_assoc] at huv
  rcases List.append_eq_append_iff.mp huv with ⟨a', ha, hb⟩ | ⟨c', hu, hl⟩
  · rcases List.append_eq_append_iff.mp hb with ⟨x, hx, _⟩ | ⟨x, hx, hx2⟩
    · left
      exact ⟨u, x, by rw [ha, hx, List.append_assoc]⟩
    · cases x with
      | nil =>
        left
        refine ⟨u, [], ?_⟩
        rw [ha, hx]
        simp
      | cons y ys =>
        exfalso
        simp only [List.cons_append, List.cons.injEq] at hx2
        apply hc
        rw [hx, hx2.1]
        simp
  · cases c' with
    | nil =>
      cases pat with
      | nil => left; exact List.nil_infix
      | cons p ps =>
        exfalso
        simp only [List.nil_append, List.cons_append, List.cons.injEq] at hl
        apply hc
        rw [hl.1]
        simp
    | cons y ys =>
      right
      simp only [List.cons_append, List.cons.injEq] at hl
      exact ⟨ys, v, by rw [hl.2, List.append_assoc]⟩

theorem occurs_spacedConcat (pat : List Char) (hsp : ' ' ∉ pat) (hne : pat ≠ [])
    (args : List (List Char)) :
    pat <:+: spacedConcat args ↔ ∃ a ∈ args, pat <:+: a := by
  induction args with
  | nil => simp [spacedConcat, hne]
  | cons a rest ih =>
    constructor
    · intro h
      have h1 : pat <:+: ([] : List Char) ++ ' ' :: (a ++ spacedConcat rest) := by
        simpa [spacedConcat] using h
      rcases occurs_split pat [] _ ' ' hsp h1 with h2 | h2
      · exact absurd (List.infix_nil.mp h2) hne
      · cases rest with
        | nil =>
          refine ⟨a, by simp, ?_⟩
          simpa [spacedConcat] using h2
        | cons r rs =>
          have h3 : pat <:+: a ++ ' ' :: (r ++ spacedConcat rs) := by
            simpa [spacedConcat] using h2
          rcases occurs_split pat a _ ' ' hsp h3 with h4 | h4
          · exact ⟨a, by simp, h4⟩
          · have h5 : pat <:+: spacedConcat (r :: rs) := by
              obtain ⟨u, v, huv⟩ := h4
              exact ⟨' ' :: u, v, by simp [spacedConcat, ← huv]⟩
            obtain ⟨x, hx, hpx⟩ := ih.mp h5
            exact ⟨x, List.mem_cons_of_mem _ hx, hpx⟩
    · rintro ⟨x, hx, u, v, huv⟩
      rcases List.mem_cons.mp hx with rfl | hx
      · exact ⟨' ' :: u, v ++ spacedConcat rest, by simp [spacedConcat, ← huv]⟩
      · obtain ⟨u', v', huv'⟩ := ih.mpr ⟨x, hx, u, v, huv⟩
        exact ⟨' ' :: (a ++ u'), v', by simp [spacedConcat, ← huv']⟩

/-! ## Lemmas on the remaining methods -/

theorem terminate_eq (b : Build) (s : State) :
    Application.terminate b s =
      { s with
        m_terminated := true
        sigtermHandler := .SIG_DFL
        sigintHandler := .SIG_DFL
        trace := s.trace ++ Application.terminateCalls b } := by
  have h2 : ¬ (SIGINT = SIGTERM) := by decide
  simp [Application.terminate, Application.terminateCalls, signal, call, calls, h2,
    List.append_assoc]

theorem deinit_eq (b : Build) (vpoll : List Call) (s : State) :
    Application.deinit b vpoll s = calls (Application.deinitCalls b vpoll) s := by
  simp [Application.deinit, Application.deinitCalls, poll_eq, call, calls,
    List.append_assoc]

theorem restart_eq (s : State) :
    Application.restart s =
      { s with
        m_stopping := true
        trace := s.trace ++
          [Call.luaCallGlobalField .onRestart, Call.resourcesGetBinaryPath,
           Call.platformSpawnProcess s.m_startupArgs, Call.luaCallGlobalField .onExit] } := by
  simp [Application.restart, exit_eq, call, List.append_assoc]

theorem exitSignalHandler_fields (sig : Int) (s : State) :
    (exitSignalHandler sig s).m_stopping = s.m_stopping ∧
    (exitSignalHandler sig s).m_terminated = s.m_terminated ∧
    (exitSignalHandler sig s).sigtermHandler = s.sigtermHandler ∧
    (exitSignalHandler sig s).sigintHandler = s.sigintHandler := by
  unfold exitSignalHandler
  split_ifs <;> simp [call]

theorem step_keeps_flags (b : Build) (op : Op) (s : State) :
    (s.m_stopping = true → (step b op s).m_stopping = true) ∧
    (s.m_terminated = true → (step b op s).m_terminated = true) := by
  cases op with
  | init args context => simp [step, init_eq]
  | poll => simp [step, poll_eq, calls]
  | close onClose =>
    cases onClose <;> simp [step, close_handled_eq, close_unhandled_eq, exit_eq, call]
  | exit => simp [step, exit_eq]
  | restart => simp [step, restart_eq]
  | deinit vpoll => simp [step, deinit_eq, calls]
  | terminate => simp [step, terminate_eq]
  | signal sig =>
    obtain ⟨h1, h2, _, _⟩ := exitSignalHandler_fields sig s
    simp only [step, h1, h2]
    exact ⟨id, id⟩

theorem run_keeps_flags (b : Build) (ops : List Op) (s : State) :
    (s.m_stopping = true → (run b ops s).m_stopping = true) ∧
    (s.m_terminated = true → (run b ops s).m_terminated = true) := by
  induction ops generalizing s with
  | nil => exact ⟨id, id⟩
  | cons op rest ih =>
    have hrun : run b (op :: rest) s = run b rest (step b op s) := rfl
    rw [hrun]
    exact ⟨fun h => (ih _).1 ((step_keeps_flags b op s).1 h),
      fun h => (ih _).2 ((step_keeps_flags b op s).2 h)⟩

theorem run_append (b : Build) (ops later : List Op) (s : State) :
    run b (ops ++ later) s = run b later (run b ops s) := by
  simp [run, List.foldl_append]

/-! ## Claims -/

/-- C1: from a state with the latch unset and the application neither
stopping nor terminated, delivering a non-empty sequence of SIGTERM/SIGINT
signals to `exitSignalHandler` records exactly one `addEvent` of the close
task on the general queue and nothing else; so the number of posted close
tasks grows by exactly one. -/
theorem signals_post_one_close (s : State) (sigs : List Int)
    (hlatch : s.signaled = false)
    (hstop : Application.isStopping s = false)
    (hterm : Application.isTerminated s = false)
    (hne : sigs ≠ [])
    (hsig : ∀ sig ∈ sigs, sig = SIGTERM ∨ sig = SIGINT) :
    emitted s (deliver sigs s) = [Call.dispatcherAddEvent .general .close] ∧
    closePosts (deliver sigs s).trace = closePosts s.trace + 1 := by
  obtain ⟨sig, rest, rfl⟩ := List.exists_cons_of_ne_nil hne
  have hfirst := exitSignalHandler_first sig s (hsig sig (by simp)) hlatch hstop hterm
  have hrun : deliver (sig :: rest) s =
      call (.dispatcherAddEvent .general .close) { s with signaled := true } := by
    show deliver rest (exitSignalHandler sig s) = _
    rw [hfirst]
    exact deliver_latched rest _ rfl
  rw [hrun]
  refine ⟨emitted_append _ _ _ rfl, ?_⟩
  simp [closePosts, call]

/-- Witness of C1: SIGTERM then SIGINT on a fresh process. -/
theorem signals_post_one_close_witness :
    emitted State.initial (deliver [SIGTERM, SIGINT] State.initial)
        = [Call.dispatcherAddEvent .general .close] ∧
    closePosts (deliver [SIGTERM, SIGINT] State.initial).trace
        = closePosts State.initial.trace + 1 :=
  signals_post_one_close State.initial [SIGTERM, SIGINT] rfl rfl rfl (by simp)
    (by simp)

/-- C7: when the application is stopping or terminated, or when the signal is
neither SIGTERM nor SIGINT, `exitSignalHandler` changes nothing at all: no
task is posted onto the general queue and the latch keeps its value. -/
theorem handler_ignores (s : State) (sig : Int)
    (h : (Application.isStopping s = true ∨ Application.isTerminated s = true) ∨
      (sig ≠ SIGTERM ∧ sig ≠ SIGINT)) :
    exitSignalHandler sig s = s ∧
    emitted s (exitSignalHandler sig s) = [] ∧
    closePosts (exitSignalHandler sig s).trace = closePosts s.trace ∧
    (exitSignalHandler sig s).signaled = s.signaled := by
  have key : exitSignalHandler sig s = s := by
    rcases h with (h | h) | ⟨h1, h2⟩
    · simp [exitSignalHandler, h]
    · simp [exitSignalHandler, h]
    · simp [exitSignalHandler, h1, h2]
  rw [key]
  simp [emitted]

/-- Witness of C7: SIGTERM on a stopping application with the latch unset,
and signal 1 on a fresh process. -/
theorem handler_ignores_witness :
    (exitSignalHandler SIGTERM { State.initial with m_stopping := true }
        = { State.initial with m_stopping := true } ∧
      emitted { State.initial with m_stopping := true }
        (exitSignalHandler SIGTERM { State.initial with m_stopping := true }) = [] ∧
      closePosts (exitSignalHandler SIGTERM
        { State.initial with m_stopping := true }).trace
        = closePosts ({ State.initial with m_stopping := true } : State).trace ∧
      (exitSignalHandler SIGTERM { State.initial with m_stopping := true }).signaled
        = ({ State.initial with m_stopping := true } : State).signaled) ∧
    exitSignalHandler 1 State.initial = State.initial :=
  ⟨handler_ignores { State.initial with m_stopping := true } SIGTERM
      (Or.inl (Or.inl rfl)),
    (handler_ignores State.initial 1 (Or.inr ⟨by decide, by decide⟩)).1⟩

/-- C2: when the `onClose` hook returns true, `close()` only records the hook
call: the stopping flag keeps its value and `onExit` is not called.  When the
hook returns false, `close()` is the hook call followed by `exit()`: `onExit`
is called exactly once and `isStopping()` is true afterwards. -/
theorem close_hook (s : State) :
    Application.isStopping (Application.close true s) = Application.isStopping s ∧
    emitted s (Application.close true s) = [Call.luaCallGlobalField .onClose] ∧
    Application.close false s =
      Application.exit (call (.luaCallGlobalField .onClose) s) ∧
    emitted s (Application.close false s) =
      [Call.luaCallGlobalField .onClose, Call.luaCallGlobalField .onExit] ∧
    onExitCalls (Application.close false s).trace = onExitCalls s.trace + 1 ∧
    Application.isStopping (Application.close false s) = true := by
  refine ⟨?_, ?_, close_unhandled_eq s, ?_, ?_, ?_⟩
  · simp [close_handled_eq, call, Application.isStopping]
  · exact emitted_append _ _ _ (by simp [close_handled_eq, call])
  · exact emitted_append _ _ _
      (by simp [close_unhandled_eq, exit_trace, call, List.append_assoc])
  · simp [close_unhandled_eq, exit_trace, call, onExitCalls]
  · simp [close_unhandled_eq, Application.exit, Application.isStopping]

/-- C6: with the network layer compiled in, one `Application::poll()` records
exactly clock update, network poll, poll of the general queue, network poll,
clock update, and changes nothing else in the state. -/
theorem poll_sequence (emscripten crash : Bool) (s : State) :
    emitted s (Application.poll ⟨true, emscripten, crash⟩ s) =
      [Call.clockUpdate,
       if emscripten then Call.webConnectionPoll else Call.connectionPoll,
       Call.dispatcherPoll .general,
       if emscripten then Call.webConnectionPoll else Call.connectionPoll,
       Call.clockUpdate] ∧
    Application.poll ⟨true, emscripten, crash⟩ s =
      { s with trace := (Application.poll ⟨true, emscripten, crash⟩ s).trace } := by
  constructor
  · apply emitted_append
    cases emscripten <;>
      simp [poll_eq, calls, Application.pollCalls, netPoll]
  · simp [poll_eq, calls]

/-- C3, refuted as stated: on a fresh process `exit()` followed by `exit()`
calls the `onExit` hook twice; the second call runs on a stopping application,
calls the hook once more and changes the state.  The same holds for a second
`close()` whose hook returns false. -/
theorem exit_twice_runs_onExit_twice :
    Application.isStopping (Application.exit State.initial) = true ∧
    onExitCalls (emitted (Application.exit State.initial)
      (Application.exit (Application.exit State.initial))) = 1 ∧
    Application.exit (Application.exit State.initial) ≠ Application.exit State.initial ∧
    onExitCalls (run ⟨true, false, false⟩ [Op.exit, Op.exit] State.initial).trace = 2 ∧
    onExitCalls (run ⟨true, false, false⟩ [Op.close false, Op.close false]
      State.initial).trace = 2 := by
  decide

/-- C3, amended: `exit()` is not guarded.  Over any sequence of `close()` and
`exit()` calls, from any state, the `onExit` hook runs once for every `exit()`
and once for every `close()` whose `onClose` hook returned false; the stopping
flag is true afterwards exactly when it was true before or one of the calls
reached `exit()`, and the terminated flag, the latch and the signal
dispositions keep their values. -/
theorem onExit_runs_per_exit (b : Build) (ops : List Op) (s : State)
    (h : ∀ op ∈ ops, op.isCloseOrExit = true) :
    onExitCalls (run b ops s).trace = onExitCalls s.trace + ops.countP Op.exits ∧
    (run b ops s).m_stopping = (s.m_stopping || ops.any Op.exits) ∧
    (run b ops s).m_terminated = s.m_terminated ∧
    (run b ops s).signaled = s.signaled ∧
    (run b ops s).sigtermHandler = s.sigtermHandler ∧
    (run b ops s).sigintHandler = s.sigintHandler := by
  induction ops generalizing s with
  | nil => simp [run]
  | cons op rest ih =>
    have hrest : ∀ o ∈ rest, o.isCloseOrExit = true :=
      fun o ho => h o (List.mem_cons_of_mem _ ho)
    have hop : op.isCloseOrExit = true := h op (List.mem_cons_self _ _)
    have hrun : run b (op :: rest) s = run b rest (step b op s) := rfl
    obtain ⟨i1, i2, i3, i4, i5, i6⟩ := ih (step b op s) hrest
    rw [hrun, i1, i2, i3, i4, i5, i6]
    cases op with
    | exit =>
      simp [step, exit_eq, onExitCalls, Op.exits, List.countP_cons]
      omega
    | close onClose =>
      cases onClose with
      | true =>
        simp [step, close_handled_eq, call, onExitCalls, Op.exits, List.countP_cons]
      | false =>
        simp [step, close_unhandled_eq, exit_eq, call, onExitCalls, Op.exits,
          List.countP_cons]
        omega
    | init _ _ => simp [Op.isCloseOrExit] at hop
    | poll => simp [Op.isCloseOrExit] at hop
    | restart => simp [Op.isCloseOrExit] at hop
    | deinit _ => simp [Op.isCloseOrExit] at hop
    | terminate => simp [Op.isCloseOrExit] at hop
    | signal _ => simp [Op.isCloseOrExit] at hop

/-- Witness of C3 amended: `exit()`, a handled `close()`, an unhandled
`close()` and `exit()` again on a fresh process run `onExit` three times. -/
theorem onExit_runs_per_exit_witness :
    onExitCalls (run ⟨true, false, false⟩
        [Op.exit, Op.close true, Op.close false, Op.exit] State.initial).trace = 3 ∧
    (run ⟨true, false, false⟩
        [Op.exit, Op.close true, Op.close false, Op.exit] State.initial).m_stopping
      = true :=
  have h := onExit_runs_per_exit ⟨true, false, false⟩
    [Op.exit, Op.close true, Op.close false, Op.exit] State.initial (by decide)
  ⟨h.1, h.2.1⟩

/-- C5, refuted as stated: `init()` on a terminated application is carried
out like any other: it installs `exitSignalHandler` for SIGTERM, starts the
general queue, initializes the configuration store, and changes the state. -/
theorem init_on_terminated_not_rejected :
    Application.isTerminated (Application.terminate ⟨true, false, false⟩ State.initial)
      = true ∧
    Application.init ⟨true, false, false⟩ [['o', 't', 'c']] 1
        (Application.terminate ⟨true, false, false⟩ State.initial)
      ≠ Application.terminate ⟨true, false, false⟩ State.initial ∧
    Call.signal SIGTERM .exitSignalHandler ∈
      emitted (Application.terminate ⟨true, false, false⟩ State.initial)
        (Application.init ⟨true, false, false⟩ [['o', 't', 'c']] 1
          (Application.terminate ⟨true, false, false⟩ State.initial)) ∧
    Call.dispatcherInit .general ∈
      emitted (Application.terminate ⟨true, false, false⟩ State.initial)
        (Application.init ⟨true, false, false⟩ [['o', 't', 'c']] 1
          (Application.terminate ⟨true, false, false⟩ State.initial)) ∧
    Call.configsInit ∈
      emitted (Application.terminate ⟨true, false, false⟩ State.initial)
        (Application.init ⟨true, false, false⟩ [['o', 't', 'c']] 1
          (Application.terminate ⟨true, false, false⟩ State.initial)) ∧
    (Application.init ⟨true, false, false⟩ [['o', 't', 'c']] 1
        (Application.terminate ⟨true, false, false⟩ State.initial)).sigtermHandler
      = .exitSignalHandler := by
  decide

/-- C5, amended: `init()` does not read the terminated flag.  In every state,
terminated or not, it installs `exitSignalHandler` for SIGTERM and SIGINT,
starts the three dispatch queues, initializes the configuration store, the
scripting engine and the proxy, in the order of `Application.initCalls`; it
stores the startup options (a space followed by the argument, over the
arguments after the first), the arguments and the context, and leaves the
latch, the stopping flag and the terminated flag as they were. -/
theorem init_ignores_terminated (b : Build) (args : List (List Char)) (context : Nat)
    (s : State) :
    emitted s (Application.init b args context s) = Application.initCalls b args ∧
    (Application.init b args context s).sigtermHandler = .exitSignalHandler ∧
    (Application.init b args context s).sigintHandler = .exitSignalHandler ∧
    [Call.signal SIGTERM .exitSignalHandler, Call.signal SIGINT .exitSignalHandler]
      <+: emitted s (Application.init b args context s) ∧
    List.Sublist
      [Call.dispatcherInit .general, Call.dispatcherInit .text, Call.dispatcherInit .main,
        Call.configsInit, Call.luaInit, Call.registerLuaFunctions, Call.proxyInit]
      (emitted s (Application.init b args context s)) ∧
    (Application.init b args context s).m_startupOptions
      = spacedConcat (args.drop 1) ∧
    (Application.init b args context s).m_startupArgs = args ∧
    (Application.init b args context s).m_context = some context ∧
    (Application.init b args context s).signaled = s.signaled ∧
    Application.isTerminated (Application.init b args context s)
      = Application.isTerminated s ∧
    Application.isStopping (Application.init b args context s)
      = Application.isStopping s := by
  have hem : emitted s (Application.init b args context s)
      = Application.initCalls b args :=
    emitted_append _ _ _ (by rw [init_eq])
  rw [hem]
  refine ⟨rfl, by rw [init_eq], by rw [init_eq], ?_, ?_,
    by rw [init_eq, startupOptions_eq], by rw [init_eq], by rw [init_eq],
    by rw [init_eq], by rw [init_eq]; rfl, by rw [init_eq]; rfl⟩
  · simp only [Application.initCalls, List.append_assoc]
    exact List.prefix_append _ _
  · simp only [Application.initCalls]
    split_ifs <;> simp only [List.cons_append, List.nil_append, List.append_nil] <;>
      repeat (first
        | exact List.Sublist.refl _
        | apply List.Sublist.cons₂
        | apply List.Sublist.cons)

/-- C4: the stopping flag and the terminated flag are monotone.  For every
sequence `ops` of init, poll, close, exit, restart, deinit and terminate calls
and signal deliveries, from every state: if `isStopping()` is true after `ops`
it is true after any further operations `later`, and likewise for
`isTerminated()`. -/
theorem flags_monotone (b : Build) (ops later : List Op) (s : State) :
    (Application.isStopping (run b ops s) = true →
      Application.isStopping (run b (ops ++ later) s) = true) ∧
    (Application.isTerminated (run b ops s) = true →
      Application.isTerminated (run b (ops ++ later) s) = true) := by
  rw [run_append]
  exact run_keeps_flags b later (run b ops s)

/-- Witness of C4: a process that is initialised, signalled, closed and
terminated keeps both flags through a second init, polls, a handled close, a
restart, a deinit and more signals. -/
theorem flags_monotone_witness :
    (Application.isStopping (run ⟨true, false, false⟩
        [Op.init [['o', 't', 'c']] 1, Op.signal SIGTERM, Op.poll, Op.close false,
          Op.deinit [], Op.terminate] State.initial) = true ∧
      Application.isStopping (run ⟨true, false, false⟩
        ([Op.init [['o', 't', 'c']] 1, Op.signal SIGTERM, Op.poll, Op.close false,
          Op.deinit [], Op.terminate] ++
         [Op.init [['o', 't', 'c'], ['-', 'x']] 2, Op.poll, Op.close true, Op.restart,
          Op.deinit [Call.clockUpdate], Op.signal SIGINT, Op.exit, Op.terminate])
        State.initial) = true) ∧
    (Application.isTerminated (run ⟨true, false, false⟩
        [Op.init [['o', 't', 'c']] 1, Op.signal SIGTERM, Op.poll, Op.close false,
          Op.deinit [], Op.terminate] State.initial) = true ∧
      Application.isTerminated (run ⟨true, false, false⟩
        ([Op.init [['o', 't', 'c']] 1, Op.signal SIGTERM, Op.poll, Op.close false,
          Op.deinit [], Op.terminate] ++
         [Op.init [['o', 't', 'c'], ['-', 'x']] 2, Op.poll, Op.close true, Op.restart,
          Op.deinit [Call.clockUpdate], Op.signal SIGINT, Op.exit, Op.terminate])
        State.initial) = true) :=
  ⟨⟨by decide, (flags_monotone ⟨true, false, false⟩ _ _ State.initial).1 (by decide)⟩,
   ⟨by decide, (flags_monotone ⟨true, false, false⟩ _ _ State.initial).2 (by decide)⟩⟩

/-- C8: with the network layer compiled in, `terminate()` records, in every
state, exactly: network terminate, configuration terminate, resources
terminate, scripting terminate, proxy terminate, then `signal(SIGTERM,
SIG_DFL)` and `signal(SIGINT, SIG_DFL)`; so each subsystem is released exactly
once, in an order that does not depend on the state.  Afterwards
`isTerminated()` is true and both dispositions are `SIG_DFL` (in a build
without the network layer the same holds with the network call left out).
Every other
operation leaves each of the two dispositions as it was or sets it to
`exitSignalHandler`, and `deinit` records no reset to `SIG_DFL` beyond those of
the `poll()` it dispatches to. -/
theorem terminate_releases (emscripten crash : Bool) (b : Build) (s : State) :
    emitted s (Application.terminate ⟨true, emscripten, crash⟩ s) =
      [if emscripten then Call.webConnectionTerminate else Call.connectionTerminate,
       Call.configsTerminate, Call.resourcesTerminate, Call.luaTerminate,
       Call.proxyTerminate, Call.signal SIGTERM .SIG_DFL, Call.signal SIGINT .SIG_DFL] ∧
    emitted s (Application.terminate b s) =
      netTerminate b ++
        [Call.configsTerminate, Call.resourcesTerminate, Call.luaTerminate,
         Call.proxyTerminate, Call.signal SIGTERM .SIG_DFL, Call.signal SIGINT .SIG_DFL] ∧
    Application.isTerminated (Application.terminate b s) = true ∧
    (Application.terminate b s).sigtermHandler = .SIG_DFL ∧
    (Application.terminate b s).sigintHandler = .SIG_DFL ∧
    (∀ op : Op, op = Op.terminate ∨
      (((step b op s).sigtermHandler = s.sigtermHandler ∨
          (step b op s).sigtermHandler = .exitSignalHandler) ∧
        ((step b op s).sigintHandler = s.sigintHandler ∨
          (step b op s).sigintHandler = .exitSignalHandler))) ∧
    (∀ args context, resets (emitted s (Application.init b args context s)) = []) ∧
    resets (emitted s (Application.poll b s)) = [] ∧
    (∀ onClose, resets (emitted s (Application.close onClose s)) = []) ∧
    resets (emitted s (Application.exit s)) = [] ∧
    resets (emitted s (Application.restart s)) = [] ∧
    (∀ vpoll, resets (emitted s (Application.deinit b vpoll s)) = resets vpoll) := by
  refine ⟨?_, emitted_append _ _ _ (by rw [terminate_eq]; rfl),
    by simp [terminate_eq, Application.isTerminated], by simp [terminate_eq],
    by simp [terminate_eq], ?_, ?_, ?_, ?_, ?_, ?_, ?_⟩
  · apply emitted_append
    cases emscripten <;> simp [terminate_eq, Application.terminateCalls, netTerminate]
  · intro op
    cases op with
    | terminate => exact Or.inl rfl
    | init args context => right; simp [step, init_eq]
    | poll => right; simp [step, poll_eq, calls]
    | close onClose =>
      right
      cases onClose <;> simp [step, close_handled_eq, close_unhandled_eq, exit_eq, call]
    | exit => right; simp [step, exit_eq]
    | restart => right; simp [step, restart_eq]
    | deinit vpoll => right; simp [step, deinit_eq, calls]
    | signal sig =>
      right
      obtain ⟨_, _, h3, h4⟩ := exitSignalHandler_fields sig s
      exact ⟨Or.inl h3, Or.inl h4⟩
  · intro args context
    rw [emitted_append s _ (Application.initCalls b args) (by rw [init_eq])]
    simp only [Application.initCalls]
    split_ifs <;> simp [resets]
  · rw [emitted_append s _ (Application.pollCalls b) (by simp [poll_eq, calls])]
    rcases b with ⟨n, e, c⟩
    cases n <;> cases e <;> simp [Application.pollCalls, netPoll, resets]
  · intro onClose
    cases onClose
    · rw [emitted_append s _ [Call.luaCallGlobalField .onClose,
        Call.luaCallGlobalField .onExit] (by simp [close_unhandled_eq, exit_eq, call])]
      simp [resets]
    · rw [emitted_append s _ [Call.luaCallGlobalField .onClose]
        (by simp [close_handled_eq, call])]
      simp [resets]
  · rw [emitted_append s _ [Call.luaCallGlobalField .onExit] (by simp [exit_eq])]
    simp [resets]
  · rw [emitted_append s _ _ (by rw [restart_eq])]
    simp [resets]
  · intro vpoll
    rw [emitted_append s _ (Application.deinitCalls b vpoll) (by simp [deinit_eq, calls])]
    rcases b with ⟨n, e, c⟩
    cases n <;> cases e <;>
      simp [Application.deinitCalls, Application.pollCalls, netPoll, resets,
        List.filter_append]

/-- C9, refuted as stated: on an object whose `poll` is `Application::poll`,
`deinit()` never polls the text queue nor the main queue, although it shuts
both down; only the general queue is polled. -/
theorem deinit_skips_text_and_main :
    Call.dispatcherPoll .text ∉ emitted State.initial
      (Application.deinit ⟨true, false, false⟩
        (Application.pollCalls ⟨true, false, false⟩) State.initial) ∧
    Call.dispatcherPoll .main ∉ emitted State.initial
      (Application.deinit ⟨true, false, false⟩
        (Application.pollCalls ⟨true, false, false⟩) State.initial) ∧
    Call.dispatcherShutdown .text ∈ emitted State.initial
      (Application.deinit ⟨true, false, false⟩
        (Application.pollCalls ⟨true, false, false⟩) State.initial) ∧
    Call.dispatcherShutdown .main ∈ emitted State.initial
      (Application.deinit ⟨true, false, false⟩
        (Application.pollCalls ⟨true, false, false⟩) State.initial) ∧
    Call.dispatcherPoll .general ∈ emitted State.initial
      (Application.deinit ⟨true, false, false⟩
        (Application.pollCalls ⟨true, false, false⟩) State.initial) := by
  decide

/-- C9, amended: in every state `deinit()` records the `onTerminate` hook, the
calls of the `poll()` it dispatches to, the calls of `Application::poll()`,
the shutdown of the text, the general and the main queue in that order, and
only then the unloading and clearing of the modules and the garbage
collection; it changes nothing else.  `Application::poll()` polls the general
queue, so that queue is polled after `onTerminate` and before its shutdown;
it polls neither the text nor the main queue and shuts no queue down. -/
theorem deinit_sequence (b : Build) (vpoll : List Call) (s : State) :
    emitted s (Application.deinit b vpoll s) =
      [Call.luaCallGlobalField .onTerminate] ++ vpoll ++ Application.pollCalls b ++
        [Call.dispatcherShutdown .text, Call.dispatcherShutdown .general,
         Call.dispatcherShutdown .main, Call.modulesUnloadModules, Call.modulesClear,
         Call.luaCollectGarbage] ∧
    emitted s (Application.poll b s) = Application.pollCalls b ∧
    Call.dispatcherPoll .general ∈ Application.pollCalls b ∧
    Call.dispatcherPoll .text ∉ Application.pollCalls b ∧
    Call.dispatcherPoll .main ∉ Application.pollCalls b ∧
    (∀ q, Call.dispatcherShutdown q ∉ Application.pollCalls b) ∧
    Application.deinit b vpoll s =
      { s with trace := (Application.deinit b vpoll s).trace } := by
  refine ⟨emitted_append _ _ _ (by simp [deinit_eq, calls, Application.deinitCalls]),
    emitted_append _ _ _ (by simp [poll_eq, calls]), ?_, ?_, ?_, ?_,
    by simp [deinit_eq, calls]⟩
  all_goals
    rcases b with ⟨n, e, c⟩
    cases n <;> cases e <;> simp [Application.pollCalls, netPoll]

/-- C10: for every argument vector, `init()` stores as startup options the
concatenation, over the arguments after the first in order, of a space
followed by the argument, and stores the arguments themselves; it calls
`g_platform.setDevice({ Mobile, Android })`, once, if and only if some
argument other than the first contains "-mobile" as a contiguous substring. -/
theorem init_startup_options (b : Build) (args : List (List Char)) (context : Nat)
    (s : State) :
    (Application.init b args context s).m_startupOptions = spacedConcat (args.drop 1) ∧
    (Application.init b args context s).m_startupArgs = args ∧
    (Call.platformSetDevice .Mobile .Android ∈
        emitted s (Application.init b args context s) ↔
      ∃ a ∈ args.drop 1, mobileFlag <:+: a) ∧
    (emitted s (Application.init b args context s)).count
      (Call.platformSetDevice .Mobile .Android) ≤ 1 := by
  have hem : emitted s (Application.init b args context s)
      = Application.initCalls b args :=
    emitted_append _ _ _ (by rw [init_eq])
  have hocc : (find (startupOptions args) mobileFlag).isSome = true ↔
      ∃ a ∈ args.drop 1, mobileFlag <:+: a := by
    rw [find, findFrom_isSome, startupOptions_eq]
    exact occurs_spacedConcat mobileFlag (by decide) (by decide) _
  rw [hem]
  refine ⟨by rw [init_eq, startupOptions_eq], by rw [init_eq], ?_, ?_⟩
  · rw [← hocc]
    simp only [Application.initCalls]
    split_ifs <;> simp_all
  · simp only [Application.initCalls]
    split_ifs <;> simp [List.count_cons]

end Otc
